import Mathlib

/-
Verification of the optimistic-sync notes client core.

The development shallowly embeds the JavaScript sources:
  - notesTypes (Note shape, createNote, getNoteDisplayTitle),
  - notesApi (URL joining, validation, retry/backoff loop, error classes),
  - App (the sync controller: initial load, retry, optimistic
    create/update/delete, selection maintenance, offline fallback).

Strings are modelled as Lean String; JavaScript string primitives
(trim, split, slice) are given explicit executable models over the
character list.  Timestamps (Date.now(), epoch milliseconds) are
modelled as Nat; nondeterministic inputs (Date.now() results,
Math.random() suffixes, remote outcomes) are passed as explicit
parameters.  The controller's async handlers are embedded as an atomic
step function: each operation event carries the remote outcome it would
observe, and the step applies the optimistic phase and the continuation
in one transition, returning also whether a network call was issued.
-/

/-- Whitespace characters recognised by JavaScript String.prototype.trim
(ASCII subset; the non-ASCII space code points do not occur in this
development). -/
def isJsWhitespace (c : Char) : Bool :=
  c = ' ' || c = '\t' || c = '\n' || c = '\r' || c = '\x0b' || c = '\x0c'

/-- Model of JavaScript `s.trim()`: drop leading and trailing whitespace. -/
def jsTrim (s : String) : String :=
  (((s.toList.dropWhile isJsWhitespace).reverse.dropWhile isJsWhitespace).reverse).asString

/-- Model of JavaScript `s.slice(0, n)` for a nonnegative n. -/
def jsSlice (n : Nat) (s : String) : String :=
  (s.toList.take n).asString

/-- Model of JavaScript `s.split(sep)` for a single-character separator:
splits on every occurrence, keeping empty segments, and yields at least
one segment. -/
def splitChar (c : Char) : List Char → List (List Char)
  | [] => [[]]
  | a :: rest =>
    if a = c then [] :: splitChar c rest
    else
      match splitChar c rest with
      | [] => [[a]]
      | g :: gs => (a :: g) :: gs

/-- Note shape from notesTypes: id, title, content, updatedAt (epoch ms). -/
structure Note where
  id : String
  title : String
  content : String
  updatedAt : Nat
deriving DecidableEq, Repr

/-- Embedding of notesTypes.createNote (imported by App as createLocalNote):
the two nondeterministic inputs Date.now() and the random hex suffix are
explicit parameters; title and content default to the empty string. -/
def createLocalNote (now : Nat) (rand : String) (title content : Option String) : Note :=
  { id := "note_" ++ toString now ++ "_" ++ rand
  , title := title.getD ""
  , content := content.getD ""
  , updatedAt := now }

/-- Embedding of notesTypes.getNoteDisplayTitle: trimmed title when
non-empty, else the trimmed first segment of content.split('\n') when
non-empty (sliced to 40 characters), else the literal placeholder. -/
def getNoteDisplayTitle (note : Note) : String :=
  let t := jsTrim note.title
  if t.length > 0 then t
  else
    let firstLine := jsTrim ((splitChar '\n' note.content.toList).headD []).asString
    if firstLine.length > 0 then jsSlice 40 firstLine
    else "Untitled note"

/-- Spec-side rendering of claim C4's words (not the source): trimmed
title when non-empty, else the first line of content whose trim is
non-empty, truncated to 40 characters, else the placeholder. -/
def displayTitleSpecC4 (note : Note) : String :=
  let t := jsTrim note.title
  if t ≠ "" then t
  else
    match ((splitChar '\n' note.content.toList).map (fun l => jsTrim l.asString)).filter
        (fun l => l ≠ "") with
    | [] => "Untitled note"
    | l :: _ => jsSlice 40 l

/-- Spec-side rendering of claim C4 as amended: trimmed title when
non-empty, else the trimmed first line of content (characters before the
first newline) when non-empty, truncated to 40 characters, else the
placeholder. -/
def displayTitleAmendedC4 (note : Note) : String :=
  let t := jsTrim note.title
  if t ≠ "" then t
  else
    let fl := jsTrim (note.content.toList.takeWhile (fun c => c ≠ '\n')).asString
    if fl ≠ "" then jsSlice 40 fl else "Untitled note"

/-- Embedding of notesApi.normalizeBaseUrl: remove every trailing slash
(the regex replace of a trailing slash run with the empty string). -/
def normalizeBaseUrl (baseUrl : String) : String :=
  ((baseUrl.toList.reverse.dropWhile (fun c => c = '/')).reverse).asString

/-- Embedding of notesApi.joinUrl: normalized base; empty path yields the
base alone; a path with a leading slash is appended as-is; otherwise a
single slash is inserted. -/
def joinUrl (baseUrl path : String) : String :=
  let b := normalizeBaseUrl baseUrl
  if path = "" then b
  else if path.startsWith "/" then b ++ path
  else b ++ "/" ++ path

/-- Spec-side trailing-slash stripping, written from the spec's words as
a right-recursion: a base ending in a slash loses that slash, repeatedly. -/
def dropTrailingSpec (c : Char) : List Char → List Char
  | [] => []
  | a :: rest =>
    if dropTrailingSpec c rest = [] && a = c then []
    else a :: dropTrailingSpec c rest

/-- Spec-side rendering of claim C9's words: stripped base followed by
the path with a leading slash enforced exactly once. -/
def joinUrlSpecC9 (baseUrl path : String) : String :=
  (dropTrailingSpec '/' baseUrl.toList).asString ++
    (if path.startsWith "/" then path else "/" ++ path)

/-- Error values thrown by the notesApi module: ApiError (message,
optional status, retriable flag) and BackendUnavailableError. -/
inductive ClientError where
  | apiError (message : String) (status : Option Nat) (retriable : Bool)
  | backendUnavailable (message : String)
deriving DecidableEq, Repr

/-- The JavaScript `name` property of each error class. -/
def ClientError.errorName : ClientError → String
  | .apiError _ _ _ => "ApiError"
  | .backendUnavailable _ => "BackendUnavailableError"

/-- Request payload for create/update: a title and a content string.  A
missing/null/non-object argument is modelled as `none` at the call sites. -/
structure NotePayload where
  title : String
  content : String
deriving DecidableEq, Repr

/-- The request a client method hands to requestJsonWithRetries once its
arguments pass validation: HTTP method, the id embedded in the path (if
any, prior to percent-encoding), and whether a JSON body is attached. -/
structure ApiRequest where
  method : String
  idArg : Option String
  hasBody : Bool
deriving DecidableEq, Repr

/-- Embedding of the validation phase of notesApi getNote: an empty or
missing id (JavaScript falsy, modelled as the empty string) throws an
ApiError before any request is built; otherwise the GET request is issued. -/
def getNoteValidated (id : String) : Except ClientError ApiRequest :=
  if id = "" then .error (.apiError "getNote requires an id." none false)
  else .ok { method := "GET", idArg := some id, hasBody := false }

/-- Embedding of the validation phase of notesApi createNote. -/
def createNoteValidated (payload : Option NotePayload) : Except ClientError ApiRequest :=
  match payload with
  | none => .error (.apiError "createNote requires a payload object." none false)
  | some _ => .ok { method := "POST", idArg := none, hasBody := true }

/-- Embedding of the validation phase of notesApi updateNote: the id
check runs first, then the payload check, before any request is built. -/
def updateNoteValidated (id : String) (payload : Option NotePayload) :
    Except ClientError ApiRequest :=
  if id = "" then .error (.apiError "updateNote requires an id." none false)
  else
    match payload with
    | none => .error (.apiError "updateNote requires a payload object." none false)
    | some _ => .ok { method := "PUT", idArg := some id, hasBody := true }

/-- Embedding of the validation phase of notesApi deleteNote. -/
def deleteNoteValidated (id : String) : Except ClientError ApiRequest :=
  if id = "" then .error (.apiError "deleteNote requires an id." none false)
  else .ok { method := "DELETE", idArg := some id, hasBody := false }

/-- Name of the error (if any) produced by a validation phase. -/
def validationErrorName : Except ClientError ApiRequest → Option String
  | .error e => some e.errorName
  | .ok _ => none

/-- Outcome of a single fetch attempt inside requestJsonWithRetries,
after the classification in attemptOnce: a response with an ok status, a
response with a non-2xx status (thrown as ApiError whose retriable flag
is set exactly for 500..599), a network/CORS-classified rejection
(thrown as BackendUnavailableError), or an abort/timeout (thrown as a
non-retriable ApiError). -/
inductive AttemptOutcome where
  | success (status : Nat)
  | httpError (status : Nat)
  | networkError
  | aborted
deriving DecidableEq, Repr

/-- Whether attemptOnce's thrown error satisfies the retry condition of
the loop: BackendUnavailableError, or ApiError with retriable = true
(set iff the status is in 500..599). -/
def AttemptOutcome.isRetriableFailure : AttemptOutcome → Bool
  | .success _ => false
  | .httpError s => 500 ≤ s && s ≤ 599
  | .networkError => true
  | .aborted => false

/-- Whether the attempt returned normally. -/
def AttemptOutcome.isSuccess : AttemptOutcome → Bool
  | .success _ => true
  | _ => false

/-- Embedding of the retry loop of requestJsonWithRetries.  `outcomes i`
is the classified outcome of attempt number `i`; `remaining` counts the
attempts the loop may still perform (isLast holds when it is 1).  The
result is the final outcome together with the list of backoff delays
slept between attempts (base * 2 ^ attempt before re-attempt
attempt+1).  The `remaining = 0` case models the loop's unreachable
trailing throw. -/
def runAttempts (outcomes : Nat → AttemptOutcome) (base attempt : Nat) :
    Nat → AttemptOutcome × List Nat
  | 0 => (.aborted, [])
  | remaining + 1 =>
    let o := outcomes attempt
    if o.isSuccess then (o, [])
    else if remaining ≠ 0 && o.isRetriableFailure then
      let r := runAttempts outcomes base (attempt + 1) remaining
      (r.1, base * 2 ^ attempt :: r.2)
    else (o, [])

/-- Embedding of requestJsonWithRetries: maxAttempts = 1 + max(0, retries)
attempts starting at attempt 0.  The retries option is a JavaScript
number that may be negative, hence Int. -/
def requestJsonWithRetries (retries : Int) (retryBaseDelayMs : Nat)
    (outcomes : Nat → AttemptOutcome) : AttemptOutcome × List Nat :=
  runAttempts outcomes retryBaseDelayMs 0 (1 + (max 0 retries).toNat)

/-- Default retries option of createNotesApiClient. -/
def defaultRetries : Int := 2

/-- Default retryBaseDelayMs option of createNotesApiClient. -/
def defaultRetryBaseDelayMs : Nat := 250

/-- Default timeoutMs option of createNotesApiClient. -/
def defaultTimeoutMs : Nat := 12000

/-- The App component's status state ('loading' | 'ready' | 'error'). -/
inductive AppStatus where
  | loading
  | ready
  | error
deriving DecidableEq, Repr

/-- The App component's state variables. -/
structure AppState where
  status : AppStatus
  errorMessage : String
  notes : List Note
  selectedNoteId : Option String
  mobileSidebarOpen : Bool
  isOfflineMode : Bool
  toastMessage : String
deriving DecidableEq, Repr

/-- The component's initial state (the useState initial values). -/
def initialAppState : AppState :=
  { status := .loading
  , errorMessage := ""
  , notes := []
  , selectedNoteId := none
  , mobileSidebarOpen := false
  , isOfflineMode := false
  , toastMessage := "" }

/-- Insertion of a note into a list already sorted by updatedAt
descending: the note moves past strictly-newer entries only and lands
before the first tied-or-older one.  The inserted note always comes from
earlier in the original list than the already-sorted entries, so ties
keep their original order (stability). -/
def insertNoteDesc (x : Note) : List Note → List Note
  | [] => [x]
  | y :: ys => if x.updatedAt < y.updatedAt then y :: insertNoteDesc x ys else x :: y :: ys

/-- Embedding of App.sortNotes: copy then sort newest-first with the
comparator (a, b) => b.updatedAt - a.updatedAt.  JavaScript Array.sort
is specified as a stable sort by the comparator, and a stable sorted
permutation is unique, so it is modelled by the stable insertion sort. -/
def sortNotes (l : List Note) : List Note :=
  l.foldr insertNoteDesc []

/-- Content string of the first seed note. -/
def welcomeSeedContent : String :=
  "Create, edit, and delete notes.\n\nThis app can run with or without a backend."

/-- Content string of the second seed note. -/
def tipSeedContent : String :=
  "If the backend is unavailable, the app switches to local-only mode automatically."

/-- Embedding of App.createSeedNotes: two createLocalNote results (each
with its own Date.now() and random suffix), the element at index idx
bumped by idx for a stable ordering, then sorted. -/
def createSeedNotes (now1 now2 : Nat) (rand1 rand2 : String) : List Note :=
  let n0 := createLocalNote now1 rand1 (some "Welcome") (some welcomeSeedContent)
  let n1 := createLocalNote now2 rand2 (some "Tip") (some tipSeedContent)
  sortNotes [{ n0 with updatedAt := n0.updatedAt + 0 }, { n1 with updatedAt := n1.updatedAt + 1 }]

/-- Outcome of an api.listNotes call as seen by the App handlers: a
resolved list, a BackendUnavailableError rejection, or any other Error
rejection carrying its message. -/
inductive ListResult where
  | ok (l : List Note)
  | backendUnavailable (msg : String)
  | otherError (msg : String)
deriving DecidableEq, Repr

/-- Outcome of an api.createNote or api.updateNote call. -/
inductive NoteResult where
  | ok (n : Note)
  | backendUnavailable (msg : String)
  | otherError (msg : String)
deriving DecidableEq, Repr

/-- Outcome of an api.deleteNote call. -/
inductive UnitResult where
  | ok
  | backendUnavailable (msg : String)
  | otherError (msg : String)
deriving DecidableEq, Repr

/-- Embedding of the App initial-load effect body: status and
errorMessage are reset on entry; on success the sorted list is stored
and offline mode cleared; on BackendUnavailableError offline mode is
entered with the seed notes; any other failure enters the error phase
with the failure's message. -/
def applyInitialLoad (s : AppState) (now1 now2 : Nat) (rand1 rand2 : String)
    (r : ListResult) : AppState :=
  match r with
  | .ok l =>
    { s with notes := sortNotes l, isOfflineMode := false
           , status := .ready, errorMessage := "" }
  | .backendUnavailable _ =>
    { s with isOfflineMode := true, notes := createSeedNotes now1 now2 rand1 rand2
           , status := .ready, errorMessage := "" }
  | .otherError m => { s with status := .error, errorMessage := m }

/-- Embedding of App.retry: like the initial load, except that on
BackendUnavailableError the existing notes are kept when non-empty
(seeding otherwise) and a distinct transient notice is shown. -/
def applyRetry (s : AppState) (now1 now2 : Nat) (rand1 rand2 : String)
    (r : ListResult) : AppState :=
  match r with
  | .ok l =>
    { s with notes := sortNotes l, isOfflineMode := false
           , status := .ready, errorMessage := "" }
  | .backendUnavailable _ =>
    { s with isOfflineMode := true
           , notes := if s.notes.isEmpty then createSeedNotes now1 now2 rand1 rand2 else s.notes
           , status := .ready, errorMessage := ""
           , toastMessage := "Backend still unavailable. Staying in local mode." }
  | .otherError m => { s with status := .error, errorMessage := m }

/-- The temporary id App.createNewNote assigns (createLocalNote's id). -/
def tempNoteId (now2 : Nat) (rand : String) : String :=
  (createLocalNote now2 rand (some "") (some "")).id

/-- Embedding of the optimistic phase of App.createNewNote: the temp note
(with updatedAt overridden by the outer Date.now()) is prepended and the
list re-sorted, the temp id selected, and the mobile sidebar closed. -/
def createOptimistic (s : AppState) (now1 now2 : Nat) (rand : String) : AppState :=
  let temp := createLocalNote now2 rand (some "") (some "")
  { s with notes := sortNotes ({ temp with updatedAt := now1 } :: s.notes)
         , selectedNoteId := some temp.id
         , mobileSidebarOpen := false }

/-- Embedding of App.createNewNote: optimistic insert; in offline mode
that is the final state; on success the temp note is replaced by the
server note (re-sorted) and the server id selected; on
BackendUnavailableError offline mode is entered keeping the optimistic
state; on any other failure the temp note is removed, the selection
cleared, and the failure's message shown as a toast. -/
def applyCreate (s : AppState) (now1 now2 : Nat) (rand : String)
    (r : NoteResult) : AppState :=
  let tid := tempNoteId now2 rand
  let s1 := createOptimistic s now1 now2 rand
  if s.isOfflineMode then s1
  else
    match r with
    | .ok created =>
      { s1 with notes := sortNotes (s1.notes.map (fun n => if n.id = tid then created else n))
              , selectedNoteId := some created.id }
    | .backendUnavailable _ =>
      { s1 with isOfflineMode := true
              , toastMessage := "Backend unavailable. Continuing in local mode." }
    | .otherError m =>
      { s1 with notes := s1.notes.filter (fun n => n.id ≠ tid)
              , selectedNoteId := none
              , toastMessage := m }

/-- Embedding of the optimistic phase of App.deleteNoteById: the note is
filtered out and the selection cleared when it pointed at that note. -/
def deleteOptimistic (s : AppState) (id : String) : AppState :=
  { s with notes := s.notes.filter (fun n => n.id ≠ id)
         , selectedNoteId := if s.selectedNoteId = some id then none else s.selectedNoteId }

/-- Embedding of App.deleteNoteById: optimistic removal; in offline mode
that is final; on success nothing more happens; on
BackendUnavailableError offline mode is entered keeping the removal; on
any other failure the pre-operation list is restored (the selection is
not restored by the handler) and the failure's message shown. -/
def applyDelete (s : AppState) (id : String) (r : UnitResult) : AppState :=
  let s1 := deleteOptimistic s id
  if s.isOfflineMode then s1
  else
    match r with
    | .ok => s1
    | .backendUnavailable _ =>
      { s1 with isOfflineMode := true
              , toastMessage := "Backend unavailable. Delete kept locally." }
    | .otherError m => { s1 with notes := s.notes, toastMessage := m }

/-- Embedding of the App selectedNote memo: null when selectedNoteId is
falsy (null or the empty string), else the first note with that id. -/
def selectedNoteOf (s : AppState) : Option Note :=
  match s.selectedNoteId with
  | none => none
  | some sid => if sid = "" then none else s.notes.find? (fun n => n.id = sid)

/-- Patch argument of App.updateSelectedNote: optional title and content. -/
structure NotePatch where
  title : Option String
  content : Option String
deriving DecidableEq, Repr

/-- The optimistic note App.updateSelectedNote builds: patched fields
where defined, previous fields otherwise, updatedAt set to now. -/
def updateOptimisticNote (previous : Note) (patch : NotePatch) (now : Nat) : Note :=
  { previous with
      title := patch.title.getD previous.title
    , content := patch.content.getD previous.content
    , updatedAt := now }

/-- Embedding of the optimistic phase of App.updateSelectedNote: a no-op
without a selected note, else the selected note is replaced (by id) with
the optimistic note and the list re-sorted. -/
def updateOptimisticState (s : AppState) (patch : NotePatch) (now : Nat) : AppState :=
  match selectedNoteOf s with
  | none => s
  | some previous =>
    { s with notes := sortNotes (s.notes.map
        (fun n => if n.id = previous.id then updateOptimisticNote previous patch now else n)) }

/-- Embedding of App.updateSelectedNote: early return without a selected
note; optimistic replace; in offline mode that is final; on success the
server note replaces the entry (by the previous id); on
BackendUnavailableError offline mode is entered keeping the optimistic
state; on any other failure the previous note is restored (by id) and
the failure's message shown as a toast. -/
def applyUpdate (s : AppState) (patch : NotePatch) (now : Nat) (r : NoteResult) : AppState :=
  match selectedNoteOf s with
  | none => s
  | some previous =>
    let s1 := { s with notes := sortNotes (s.notes.map
        (fun n => if n.id = previous.id then updateOptimisticNote previous patch now else n)) }
    if s.isOfflineMode then s1
    else
      match r with
      | .ok updated =>
        { s1 with notes := sortNotes (s1.notes.map
            (fun n => if n.id = previous.id then updated else n)) }
      | .backendUnavailable _ =>
        { s1 with isOfflineMode := true
                , toastMessage := "Backend unavailable. Changes kept locally." }
      | .otherError m =>
        { s1 with notes := sortNotes (s1.notes.map
            (fun n => if n.id = previous.id then previous else n))
                , toastMessage := m }

/-- The effect's keep-selection guard, JavaScript
`selectedNoteId && notes.some((n) => n.id === selectedNoteId)`: the
selected id is truthy (non-null and non-empty) and present in the list. -/
def selectionGuard (notes : List Note) (sel : Option String) : Bool :=
  match sel with
  | none => false
  | some sid => !(sid == "") && notes.any (fun n => n.id == sid)

/-- Embedding of the App selection-maintenance effect on the selected
id: no change unless status is ready; no change when the selected id is
truthy and present in the list; else the id of the head of the
stable-descending sort when the list is non-empty, else no selection. -/
def maintainSelectionId (st : AppStatus) (notes : List Note) (sel : Option String) :
    Option String :=
  if st ≠ .ready then sel
  else if selectionGuard notes sel then sel
  else
    match sortNotes notes with
    | [] => none
    | m :: _ => some m.id

/-- The selection-maintenance effect applied to a whole state. -/
def applyMaintainSelection (s : AppState) : AppState :=
  { s with selectedNoteId := maintainSelectionId s.status s.notes s.selectedNoteId }

/-- Events of the serialized controller semantics.  Operation events
carry the nondeterministic inputs the handler reads (Date.now() values,
random id suffixes) and the remote outcome the handler would observe if
it issued the call. -/
inductive AppEvent where
  | initialLoad (now1 now2 : Nat) (rand1 rand2 : String) (r : ListResult)
  | retryLoad (now1 now2 : Nat) (rand1 rand2 : String) (r : ListResult)
  | createNewNote (now1 now2 : Nat) (rand : String) (r : NoteResult)
  | updateSelectedNote (patch : NotePatch) (now : Nat) (r : NoteResult)
  | deleteNoteById (id : String) (r : UnitResult)
  | selectNote (id : String)
  | maintainSelection
  | dismissToast
  | toastExpire
  | openMobileSidebar
  | closeMobileSidebar
deriving DecidableEq, Repr

/-- One serialized controller transition.  The Bool records whether the
handler issued a network call: load and retry always call; the mutation
handlers call unless offline mode is set (update also returns early
without a selected note); the purely local events never call. -/
def step (s : AppState) : AppEvent → AppState × Bool
  | .initialLoad now1 now2 rand1 rand2 r => (applyInitialLoad s now1 now2 rand1 rand2 r, true)
  | .retryLoad now1 now2 rand1 rand2 r => (applyRetry s now1 now2 rand1 rand2 r, true)
  | .createNewNote now1 now2 rand r => (applyCreate s now1 now2 rand r, !s.isOfflineMode)
  | .updateSelectedNote patch now r =>
      (applyUpdate s patch now r, !s.isOfflineMode && (selectedNoteOf s).isSome)
  | .deleteNoteById id r => (applyDelete s id r, !s.isOfflineMode)
  | .selectNote id => ({ s with selectedNoteId := some id }, false)
  | .maintainSelection => (applyMaintainSelection s, false)
  | .dismissToast => ({ s with toastMessage := "" }, false)
  | .toastExpire => ({ s with toastMessage := "" }, false)
  | .openMobileSidebar => ({ s with mobileSidebarOpen := true }, false)
  | .closeMobileSidebar => ({ s with mobileSidebarOpen := false }, false)

/-- Whether an event is a list call (initial load or retry) that
resolved successfully — per the code, the only way offline mode clears. -/
def AppEvent.isSuccessfulList : AppEvent → Bool
  | .initialLoad _ _ _ _ (.ok _) => true
  | .retryLoad _ _ _ _ (.ok _) => true
  | _ => false

/-- A character list renders to the empty string exactly when it is empty. -/
lemma asString_eq_empty_iff (l : List Char) : l.asString = "" ↔ l = [] := by
  constructor
  · intro h
    have := congrArg String.data h
    simpa [List.asString] using this
  · intro h; subst h; rfl

/-- A string has positive length exactly when it is not the empty string. -/
lemma string_length_pos_iff (s : String) : 0 < s.length ↔ s ≠ "" := by
  cases s with
  | mk data => simp [String.length, String.ext_iff, List.length_pos]

/-- splitChar always yields at least one segment, as JavaScript split does. -/
lemma splitChar_ne_nil (c : Char) (l : List Char) : splitChar c l ≠ [] := by
  induction l with
  | nil => simp [splitChar]
  | cons a rest ih =>
    simp only [splitChar]
    split
    · simp
    · cases h : splitChar c rest with
      | nil => simp
      | cons g gs => simp

/-- The first segment of splitChar is the prefix before the first separator. -/
lemma splitChar_headD (c : Char) (l : List Char) :
    (splitChar c l).headD [] = l.takeWhile (fun x => x ≠ c) := by
  induction l with
  | nil => simp [splitChar]
  | cons a rest ih =>
    by_cases hac : a = c
    · simp [splitChar, hac]
    · simp only [splitChar, if_neg hac, List.takeWhile_cons]
      cases h : splitChar c rest with
      | nil => exact absurd h (splitChar_ne_nil c rest)
      | cons g gs =>
        rw [h] at ih
        simp only [List.headD_cons] at ih
        simp [hac, ih]

/-- The spec-side trailing-strip agrees with the source's reversed dropWhile. -/
lemma dropTrailingSpec_eq (c : Char) (l : List Char) :
    dropTrailingSpec c l = (l.reverse.dropWhile (fun x => x = c)).reverse := by
  induction l with
  | nil => simp [dropTrailingSpec]
  | cons a rest ih =>
    simp only [dropTrailingSpec, List.reverse_cons, List.dropWhile_append]
    by_cases h : (List.dropWhile (fun x => decide (x = c)) rest.reverse).isEmpty
    · rw [if_pos h]
      have hnil : List.dropWhile (fun x => decide (x = c)) rest.reverse = [] :=
        List.isEmpty_iff.mp h
      rw [hnil] at ih
      simp only [List.reverse_nil] at ih
      rw [ih]
      by_cases hac : a = c
      · simp [hac]
      · simp [hac]
    · rw [if_neg h]
      have hne : List.dropWhile (fun x => decide (x = c)) rest.reverse ≠ [] := by
        simpa [List.isEmpty_iff] using h
      have hcond : ¬ (dropTrailingSpec c rest = [] && a = c) = true := by
        rw [ih]
        simp [hne]
      rw [if_neg hcond, ih]
      simp

/-- The retry loop performs at most `remaining` attempts (hence at most
`remaining - 1` backoff sleeps). -/
lemma runAttempts_le (outcomes : Nat → AttemptOutcome) (base : Nat) :
    ∀ remaining attempt,
      (runAttempts outcomes base attempt remaining).2.length + 1 ≤ max 1 remaining := by
  intro remaining
  induction remaining with
  | zero => intro attempt; simp [runAttempts]
  | succ r ih =>
    intro attempt
    simp only [runAttempts]
    by_cases hs : (outcomes attempt).isSuccess = true
    · simp [hs]
    · rw [if_neg hs]
      by_cases hg : (decide (r ≠ 0) && (outcomes attempt).isRetriableFailure) = true
      · rw [if_pos hg]
        have hr : r ≠ 0 := by
          have hp := hg
          simp only [Bool.and_eq_true, decide_eq_true_eq] at hp
          exact hp.1
        have := ih (attempt + 1)
        simp only [List.length_cons]
        omega
      · rw [if_neg hg]
        simp only [List.length_nil]
        omega

/-- The backoff before the (i+1)-st performed attempt is base * 2 ^ i
(relative to the starting attempt index). -/
lemma runAttempts_delays (outcomes : Nat → AttemptOutcome) (base : Nat) :
    ∀ remaining attempt,
      (runAttempts outcomes base attempt remaining).2 =
        (List.range (runAttempts outcomes base attempt remaining).2.length).map
          (fun i => base * 2 ^ (attempt + i)) := by
  intro remaining
  induction remaining with
  | zero => intro attempt; simp [runAttempts]
  | succ r ih =>
    intro attempt
    simp only [runAttempts]
    by_cases hs : (outcomes attempt).isSuccess = true
    · simp [hs]
    · rw [if_neg hs]
      by_cases hg : (decide (r ≠ 0) && (outcomes attempt).isRetriableFailure) = true
      · rw [if_pos hg]
        simp only [List.length_cons, List.range_succ_eq_map, List.map_cons, List.map_map]
        have hfun : ((fun i => base * 2 ^ (attempt + i)) ∘ Nat.succ) =
            (fun i => base * 2 ^ (attempt + 1 + i)) := by
          funext i
          simp only [Function.comp_apply, Nat.succ_eq_add_one]
          rw [show attempt + (i + 1) = attempt + 1 + i from by omega]
        rw [hfun, ← ih (attempt + 1)]
        simp
      · rw [if_neg hg]
        simp

/-- Every attempt that was followed by a retry had a retriable failure:
a non-retriable outcome (404, abort) stops the loop at once. -/
lemma runAttempts_retried (outcomes : Nat → AttemptOutcome) (base : Nat) :
    ∀ remaining attempt i,
      i < (runAttempts outcomes base attempt remaining).2.length →
      (outcomes (attempt + i)).isRetriableFailure = true := by
  intro remaining
  induction remaining with
  | zero => intro attempt i h; simp [runAttempts] at h
  | succ r ih =>
    intro attempt i h
    simp only [runAttempts] at h
    by_cases hs : (outcomes attempt).isSuccess = true
    · rw [if_pos hs] at h; simp at h
    · rw [if_neg hs] at h
      by_cases hg : (decide (r ≠ 0) && (outcomes attempt).isRetriableFailure) = true
      · rw [if_pos hg] at h
        simp only [List.length_cons] at h
        have hparts := hg
        simp only [Bool.and_eq_true, decide_eq_true_eq] at hparts
        cases i with
        | zero => simpa using hparts.2
        | succ j =>
          have := ih (attempt + 1) j (by simpa using Nat.lt_of_succ_lt_succ h)
          rwa [show attempt + 1 + j = attempt + (j + 1) from by omega] at this
      · rw [if_neg hg] at h
        simp at h

/-- When the final outcome is still a retriable failure, every permitted
attempt was used (a 503 is retried up to the configured count). -/
lemma runAttempts_exhaust (outcomes : Nat → AttemptOutcome) (base : Nat) :
    ∀ remaining attempt,
      (runAttempts outcomes base attempt remaining).1.isRetriableFailure = true →
      (runAttempts outcomes base attempt remaining).2.length + 1 = remaining := by
  intro remaining
  induction remaining with
  | zero =>
    intro attempt h
    simp [runAttempts, AttemptOutcome.isRetriableFailure] at h
  | succ r ih =>
    intro attempt h
    simp only [runAttempts] at h ⊢
    by_cases hs : (outcomes attempt).isSuccess = true
    · rw [if_pos hs] at h
      cases ho : outcomes attempt <;> rw [ho] at hs h <;>
        simp [AttemptOutcome.isSuccess, AttemptOutcome.isRetriableFailure] at hs h
    · rw [if_neg hs] at h ⊢
      by_cases hg : (decide (r ≠ 0) && (outcomes attempt).isRetriableFailure) = true
      · rw [if_pos hg] at h ⊢
        simp only [List.length_cons]
        have := ih (attempt + 1) h
        omega
      · rw [if_neg hg] at h ⊢
        simp only [List.length_nil]
        have : r = 0 := by
          by_contra hr
          exact hg (by simp [hr, h])
        omega

/-- Inserting into the list yields a permutation of consing. -/
lemma insertNoteDesc_perm (x : Note) (l : List Note) :
    (insertNoteDesc x l).Perm (x :: l) := by
  induction l with
  | nil => rfl
  | cons y ys ih =>
    simp only [insertNoteDesc]
    split
    · exact (ih.cons y).trans (List.Perm.swap x y ys)
    · rfl

/-- sortNotes permutes its input. -/
lemma sortNotes_perm (l : List Note) : (sortNotes l).Perm l := by
  induction l with
  | nil => rfl
  | cons a rest ih =>
    exact (insertNoteDesc_perm a (sortNotes rest)).trans (ih.cons a)

/-- Insertion preserves the newest-first ordering. -/
lemma insertNoteDesc_sorted (x : Note) (l : List Note)
    (h : l.Pairwise (fun a b => b.updatedAt ≤ a.updatedAt)) :
    (insertNoteDesc x l).Pairwise (fun a b => b.updatedAt ≤ a.updatedAt) := by
  induction l with
  | nil => simp [insertNoteDesc]
  | cons y ys ih =>
    rcases List.pairwise_cons.mp h with ⟨hy, hys⟩
    simp only [insertNoteDesc]
    split
    · rename_i hlt
      refine List.pairwise_cons.mpr ⟨?_, ih hys⟩
      intro z hz
      have hz' := (insertNoteDesc_perm x ys).mem_iff.mp hz
      rcases List.mem_cons.mp hz' with rfl | hzys
      · omega
      · exact hy z hzys
    · rename_i hnlt
      refine List.pairwise_cons.mpr ⟨?_, h⟩
      intro z hz
      rcases List.mem_cons.mp hz with rfl | hzys
      · omega
      · have := hy z hzys
        omega

/-- sortNotes yields a list ordered by updatedAt descending. -/
lemma sortNotes_sorted (l : List Note) :
    (sortNotes l).Pairwise (fun a b => b.updatedAt ≤ a.updatedAt) := by
  induction l with
  | nil => simp [sortNotes]
  | cons a rest ih => exact insertNoteDesc_sorted a (sortNotes rest) ih

/-- The head of sortNotes is the stable pick: the first note of the
input, in its current order, among those with the greatest updatedAt
(everything to its left in the input is strictly older). -/
lemma sortNotes_head_stable (l : List Note) :
    ∀ hd tl, sortNotes l = hd :: tl →
      hd ∈ l ∧ (∀ m ∈ l, m.updatedAt ≤ hd.updatedAt) ∧
      ∃ l₁ l₂, l = l₁ ++ hd :: l₂ ∧ ∀ m ∈ l₁, m.updatedAt < hd.updatedAt := by
  induction l with
  | nil => intro hd tl hsn; simp [sortNotes] at hsn
  | cons x rest ih =>
    intro hd tl hsn
    have hsx : sortNotes (x :: rest) = insertNoteDesc x (sortNotes rest) := rfl
    rw [hsx] at hsn
    cases hsr : sortNotes rest with
    | nil =>
      have hrest : rest = [] := by
        have hp := sortNotes_perm rest
        rw [hsr] at hp
        exact hp.nil_eq.symm
      rw [hsr] at hsn
      simp only [insertNoteDesc] at hsn
      injection hsn with h1 h2
      subst h1
      subst hrest
      refine ⟨List.mem_cons_self _ _, ?_, [], [], rfl, by simp⟩
      intro m hm
      rcases List.mem_cons.mp hm with rfl | h0
      · exact Nat.le_refl _
      · simp at h0
    | cons h' t' =>
      rw [hsr] at hsn
      simp only [insertNoteDesc] at hsn
      by_cases hlt : x.updatedAt < h'.updatedAt
      · rw [if_pos hlt] at hsn
        injection hsn with h1 h2
        subst h1
        obtain ⟨hmem, hmax, l₁, l₂, hsplit, hstrict⟩ := ih h' t' hsr
        refine ⟨List.mem_cons_of_mem x hmem, ?_, x :: l₁, l₂, by rw [hsplit]; rfl, ?_⟩
        · intro m hm
          rcases List.mem_cons.mp hm with rfl | hmr
          · omega
          · exact hmax m hmr
        · intro m hm
          rcases List.mem_cons.mp hm with rfl | hml
          · exact hlt
          · exact hstrict m hml
      · rw [if_neg hlt] at hsn
        injection hsn with h1 h2
        subst h1
        obtain ⟨hmem, hmax, _, _, _, _⟩ := ih h' t' hsr
        refine ⟨List.mem_cons_self _ _, ?_, [], rest, rfl, by simp⟩
        intro m hm
        rcases List.mem_cons.mp hm with rfl | hmr
        · exact Nat.le_refl _
        · have := hmax m hmr
          omega

/-- C1: once a BackendUnavailableError is observed on the initial load, a
retry, or a create/update/delete operation, isOfflineMode becomes true
and stays true — in offline mode every createNewNote, updateSelectedNote
and deleteNoteById transition is exactly the local optimistic mutation
with no network call issued — and the only transitions that clear
offline mode are a successful list (initial load or retry). -/
theorem offline_mode_sticky (s : AppState) (e : AppEvent) :
    (s.isOfflineMode = true → (step s e).1.isOfflineMode = false →
      e.isSuccessfulList = true) ∧
    (s.isOfflineMode = true →
      (∀ now1 now2 rand r,
        step s (.createNewNote now1 now2 rand r) = (createOptimistic s now1 now2 rand, false)) ∧
      (∀ patch now r,
        step s (.updateSelectedNote patch now r) = (updateOptimisticState s patch now, false)) ∧
      (∀ id r, step s (.deleteNoteById id r) = (deleteOptimistic s id, false))) ∧
    (∀ now1 now2 rand1 rand2 m,
      (step s (.initialLoad now1 now2 rand1 rand2 (.backendUnavailable m))).1.isOfflineMode =
        true) ∧
    (∀ now1 now2 rand1 rand2 m,
      (step s (.retryLoad now1 now2 rand1 rand2 (.backendUnavailable m))).1.isOfflineMode =
        true) ∧
    (s.isOfflineMode = false →
      (∀ now1 now2 rand m,
        (step s (.createNewNote now1 now2 rand (.backendUnavailable m))).1.isOfflineMode =
          true) ∧
      (∀ patch now m, (selectedNoteOf s).isSome = true →
        (step s (.updateSelectedNote patch now (.backendUnavailable m))).1.isOfflineMode =
          true) ∧
      (∀ id m,
        (step s (.deleteNoteById id (.backendUnavailable m))).1.isOfflineMode = true)) := by
  refine ⟨?_, ?_, ?_, ?_, ?_⟩
  · intro hoff hstep
    cases e with
    | initialLoad now1 now2 rand1 rand2 r =>
      cases r with
      | ok l => rfl
      | backendUnavailable m => simp [step, applyInitialLoad] at hstep
      | otherError m => simp [step, applyInitialLoad, hoff] at hstep
    | retryLoad now1 now2 rand1 rand2 r =>
      cases r with
      | ok l => rfl
      | backendUnavailable m => simp [step, applyRetry] at hstep
      | otherError m => simp [step, applyRetry, hoff] at hstep
    | createNewNote now1 now2 rand r =>
      simp [step, applyCreate, createOptimistic, hoff] at hstep
    | updateSelectedNote patch now r =>
      cases hsel : selectedNoteOf s with
      | none => simp [step, applyUpdate, hsel, hoff] at hstep
      | some prev => simp [step, applyUpdate, hsel, hoff] at hstep
    | deleteNoteById id r =>
      simp [step, applyDelete, deleteOptimistic, hoff] at hstep
    | selectNote id => simp [step, hoff] at hstep
    | maintainSelection => simp [step, applyMaintainSelection, hoff] at hstep
    | dismissToast => simp [step, hoff] at hstep
    | toastExpire => simp [step, hoff] at hstep
    | openMobileSidebar => simp [step, hoff] at hstep
    | closeMobileSidebar => simp [step, hoff] at hstep
  · intro hoff
    refine ⟨?_, ?_, ?_⟩
    · intro now1 now2 rand r
      simp [step, applyCreate, hoff]
    · intro patch now r
      cases hsel : selectedNoteOf s with
      | none => simp [step, applyUpdate, updateOptimisticState, hsel, hoff]
      | some prev => simp [step, applyUpdate, updateOptimisticState, hsel, hoff]
    · intro id r
      simp [step, applyDelete, hoff]
  · intro now1 now2 rand1 rand2 m
    rfl
  · intro now1 now2 rand1 rand2 m
    rfl
  · intro hoff
    refine ⟨?_, ?_, ?_⟩
    · intro now1 now2 rand m
      simp [step, applyCreate, hoff]
    · intro patch now m hsome
      rcases Option.isSome_iff_exists.mp hsome with ⟨prev, hsel⟩
      simp [step, applyUpdate, hsel, hoff]
    · intro id m
      simp [step, applyDelete, hoff]

/-- C1 witness: in a concrete offline state, a create whose remote
outcome would be an error performs only the local optimistic mutation
and issues no network call. -/
theorem offline_mode_sticky_witness :
    step
      { status := .ready, errorMessage := "", notes := [], selectedNoteId := none
      , mobileSidebarOpen := false, isOfflineMode := true, toastMessage := "" }
      (.createNewNote 1 2 "r" (.otherError "boom")) =
    (createOptimistic
      { status := .ready, errorMessage := "", notes := [], selectedNoteId := none
      , mobileSidebarOpen := false, isOfflineMode := true, toastMessage := "" } 1 2 "r",
      false) :=
  ((offline_mode_sticky
      { status := .ready, errorMessage := "", notes := [], selectedNoteId := none
      , mobileSidebarOpen := false, isOfflineMode := true, toastMessage := "" }
      (.createNewNote 1 2 "r" (.otherError "boom"))).2.1 rfl).1 1 2 "r" (.otherError "boom")

/-- C2: the initial load enters ready offline with exactly the two seed
notes titled Welcome and Tip on a BackendUnavailableError, enters the
error phase carrying the failure's message on any other error, and
enters ready online with the returned list on success. -/
theorem initial_load_outcomes (s : AppState) (now1 now2 : Nat) (rand1 rand2 : String)
    (m msg : String) (l : List Note) :
    ((step s (.initialLoad now1 now2 rand1 rand2 (.backendUnavailable m))).1.status = .ready ∧
     (step s (.initialLoad now1 now2 rand1 rand2 (.backendUnavailable m))).1.isOfflineMode =
       true ∧
     (step s (.initialLoad now1 now2 rand1 rand2 (.backendUnavailable m))).1.notes =
       createSeedNotes now1 now2 rand1 rand2 ∧
     ((step s (.initialLoad now1 now2 rand1 rand2 (.backendUnavailable m))).1.notes.map
       Note.title).Perm ["Welcome", "Tip"]) ∧
    ((step s (.initialLoad now1 now2 rand1 rand2 (.otherError msg))).1.status = .error ∧
     (step s (.initialLoad now1 now2 rand1 rand2 (.otherError msg))).1.errorMessage = msg) ∧
    ((step s (.initialLoad now1 now2 rand1 rand2 (.ok l))).1.status = .ready ∧
     (step s (.initialLoad now1 now2 rand1 rand2 (.ok l))).1.isOfflineMode = false ∧
     (step s (.initialLoad now1 now2 rand1 rand2 (.ok l))).1.notes = sortNotes l ∧
     ((step s (.initialLoad now1 now2 rand1 rand2 (.ok l))).1.notes).Perm l) := by
  refine ⟨⟨rfl, rfl, rfl, ?_⟩, ⟨rfl, rfl⟩, ⟨rfl, rfl, rfl, ?_⟩⟩
  · show ((createSeedNotes now1 now2 rand1 rand2).map Note.title).Perm ["Welcome", "Tip"]
    unfold createSeedNotes
    exact (sortNotes_perm _).map Note.title
  · show (sortNotes l).Perm l
    exact sortNotes_perm l

/-- C3: when an update issued while online fails with a
non-BackendUnavailable error, the handler restores the pre-patch note
(same title, content and updatedAt — the whole prior entity) for its id
and sets the transient notice to the failure's message. -/
theorem update_rollback (s : AppState) (patch : NotePatch) (now : Nat) (msg : String)
    (prev : Note) (hsel0 : selectedNoteOf s = some prev) (hoff : s.isOfflineMode = false) :
    prev ∈ (step s (.updateSelectedNote patch now (.otherError msg))).1.notes ∧
    (∀ n ∈ (step s (.updateSelectedNote patch now (.otherError msg))).1.notes,
      n.id = prev.id → n = prev) ∧
    (step s (.updateSelectedNote patch now (.otherError msg))).1.toastMessage = msg := by
  have hmem : prev ∈ s.notes := by
    have h := hsel0
    unfold selectedNoteOf at h
    cases hsid : s.selectedNoteId with
    | none => rw [hsid] at h; exact absurd h (by simp)
    | some sid =>
      rw [hsid] at h
      dsimp only [] at h
      by_cases hsid0 : sid = ""
      · rw [if_pos hsid0] at h; exact absurd h (by simp)
      · rw [if_neg hsid0] at h
        exact List.mem_of_find?_eq_some h
  have hfinal : (step s (.updateSelectedNote patch now (.otherError msg))).1 =
      { s with
          notes := sortNotes ((sortNotes (s.notes.map
            (fun n => if n.id = prev.id then updateOptimisticNote prev patch now else n))).map
            (fun n => if n.id = prev.id then prev else n))
        , toastMessage := msg } := by
    simp only [step, applyUpdate]
    rw [hsel0]
    simp [hoff]
  refine ⟨?_, ?_, ?_⟩
  · rw [hfinal]
    show prev ∈ sortNotes _
    rw [(sortNotes_perm _).mem_iff]
    have h1 : updateOptimisticNote prev patch now ∈ sortNotes (s.notes.map
        (fun n => if n.id = prev.id then updateOptimisticNote prev patch now else n)) := by
      rw [(sortNotes_perm _).mem_iff]
      exact List.mem_map.mpr ⟨prev, hmem, by simp⟩
    refine List.mem_map.mpr ⟨updateOptimisticNote prev patch now, h1, ?_⟩
    simp [updateOptimisticNote]
  · intro n hn hid
    rw [hfinal] at hn
    have hn' := (sortNotes_perm _).mem_iff.mp hn
    rcases List.mem_map.mp hn' with ⟨x, hx, hfx⟩
    by_cases hxid : x.id = prev.id
    · rw [if_pos hxid] at hfx
      exact hfx.symm
    · rw [if_neg hxid] at hfx
      subst hfx
      exact absurd hid hxid
  · rw [hfinal]

/-- C3 witness: a concrete online state with one selected note, whose
update fails with an ordinary error, keeps the pre-patch note and shows
the failure's message. -/
theorem update_rollback_witness :
    ({ id := "a", title := "t", content := "c", updatedAt := 5 } : Note) ∈
      (step
        { status := .ready, errorMessage := ""
        , notes := [{ id := "a", title := "t", content := "c", updatedAt := 5 }]
        , selectedNoteId := some "a", mobileSidebarOpen := false
        , isOfflineMode := false, toastMessage := "" }
        (.updateSelectedNote { title := some "X", content := none } 10
          (.otherError "boom"))).1.notes ∧
    (step
        { status := .ready, errorMessage := ""
        , notes := [{ id := "a", title := "t", content := "c", updatedAt := 5 }]
        , selectedNoteId := some "a", mobileSidebarOpen := false
        , isOfflineMode := false, toastMessage := "" }
        (.updateSelectedNote { title := some "X", content := none } 10
          (.otherError "boom"))).1.toastMessage = "boom" := by
  have h := update_rollback
    { status := .ready, errorMessage := ""
    , notes := [{ id := "a", title := "t", content := "c", updatedAt := 5 }]
    , selectedNoteId := some "a", mobileSidebarOpen := false
    , isOfflineMode := false, toastMessage := "" }
    { title := some "X", content := none } 10 "boom"
    { id := "a", title := "t", content := "c", updatedAt := 5 }
    (by decide) rfl
  exact ⟨h.1, h.2.2⟩

/-- C4 counterexample: for a note whose title is empty and whose content
starts with a newline followed by a non-empty line, the code returns the
placeholder while the claim's "first non-empty line" reading returns
"hello", so the claim as stated is false. -/
theorem display_title_counterexample :
    getNoteDisplayTitle { id := "x", title := "", content := "\nhello", updatedAt := 0 } =
      "Untitled note" ∧
    displayTitleSpecC4 { id := "x", title := "", content := "\nhello", updatedAt := 0 } =
      "hello" ∧
    getNoteDisplayTitle { id := "x", title := "", content := "\nhello", updatedAt := 0 } ≠
      displayTitleSpecC4 { id := "x", title := "", content := "\nhello", updatedAt := 0 } :=
  ⟨rfl, rfl, by decide⟩

/-- C4 as amended: displayTitle returns the trimmed title when non-empty;
otherwise the trimmed first line of content (the characters before the
first newline) when non-empty, truncated to 40 characters; otherwise the
literal placeholder "Untitled note". -/
theorem display_title_amended (note : Note) :
    getNoteDisplayTitle note = displayTitleAmendedC4 note := by
  unfold getNoteDisplayTitle displayTitleAmendedC4
  rw [splitChar_headD]
  set t := jsTrim note.title
  set fl := jsTrim ((note.content.toList.takeWhile (fun x => x ≠ '\n')).asString)
  by_cases h1 : t = ""
  · have hlen : ¬ 0 < t.length := by rw [string_length_pos_iff]; simpa using h1
    rw [if_neg hlen, if_neg (not_not_intro h1)]
    by_cases h2 : fl = ""
    · have hlen2 : ¬ 0 < fl.length := by rw [string_length_pos_iff]; simpa using h2
      rw [if_neg hlen2, if_neg (not_not_intro h2)]
    · rw [if_pos ((string_length_pos_iff fl).mpr h2), if_pos h2]
  · rw [if_pos ((string_length_pos_iff t).mpr h1), if_pos h1]

/-- C5: for every configuration and attempt-outcome sequence, the loop
makes at most 1 + max(0, retries) attempts; the delay slept before
re-attempt i+1 is retryBaseDelayMs * 2 ^ i; every retried attempt had a
retriable failure (5xx or network), so a 404 or an abort is never
retried; a final retriable failure means every permitted attempt was
used; 503 and network failures are classified retriable, 404 and aborts
are not; and with the default options (2 retries, 250 ms base) an
all-503 run makes 3 attempts with delays 250 and 500 ms while a 404
fails on the first attempt with no delays. -/
theorem retry_policy_classified (retries : Int) (base : Nat)
    (outcomes : Nat → AttemptOutcome) :
    (requestJsonWithRetries retries base outcomes).2.length + 1 ≤ 1 + (max 0 retries).toNat ∧
    (requestJsonWithRetries retries base outcomes).2 =
      (List.range (requestJsonWithRetries retries base outcomes).2.length).map
        (fun i => base * 2 ^ i) ∧
    (∀ i, i < (requestJsonWithRetries retries base outcomes).2.length →
      (outcomes i).isRetriableFailure = true) ∧
    ((requestJsonWithRetries retries base outcomes).1.isRetriableFailure = true →
      (requestJsonWithRetries retries base outcomes).2.length + 1 =
        1 + (max 0 retries).toNat) ∧
    (AttemptOutcome.httpError 503).isRetriableFailure = true ∧
    (AttemptOutcome.httpError 404).isRetriableFailure = false ∧
    AttemptOutcome.networkError.isRetriableFailure = true ∧
    AttemptOutcome.aborted.isRetriableFailure = false ∧
    requestJsonWithRetries defaultRetries defaultRetryBaseDelayMs (fun _ => .httpError 503) =
      (.httpError 503, [250, 500]) ∧
    requestJsonWithRetries defaultRetries defaultRetryBaseDelayMs (fun _ => .httpError 404) =
      (.httpError 404, []) := by
  refine ⟨?_, ?_, ?_, ?_, by decide, by decide, by decide, by decide, by decide, by decide⟩
  · have h := runAttempts_le outcomes base (1 + (max 0 retries).toNat) 0
    have hm : max 1 (1 + (max 0 retries).toNat) = 1 + (max 0 retries).toNat := by omega
    rw [hm] at h
    exact h
  · have h := runAttempts_delays outcomes base (1 + (max 0 retries).toNat) 0
    simpa using h
  · intro i hi
    have h := runAttempts_retried outcomes base (1 + (max 0 retries).toNat) 0 i hi
    simpa using h
  · intro h
    exact runAttempts_exhaust outcomes base (1 + (max 0 retries).toNat) 0 h

/-- C5 witness: with the default 2 retries, a run of 503 responses
exhausts all 3 attempts. -/
theorem retry_policy_classified_witness :
    (requestJsonWithRetries 2 250 (fun _ => .httpError 503)).2.length + 1 =
      1 + (max 0 (2 : Int)).toNat :=
  (retry_policy_classified 2 250 (fun _ => .httpError 503)).2.2.2.1 (by decide)

/-- C6 counterexample: with the selected id equal to the empty string —
which does occur among the ids of the working set — the effect re-picks
the most recent note instead of leaving the selection unchanged, so the
claim as stated is false. -/
theorem selection_empty_id_counterexample :
    maintainSelectionId .ready
      [{ id := "", title := "", content := "", updatedAt := 5 },
       { id := "a", title := "", content := "", updatedAt := 10 }] (some "") = some "a" ∧
    (([{ id := "", title := "", content := "", updatedAt := 5 },
       { id := "a", title := "", content := "", updatedAt := 10 }] : List Note).map
         Note.id).contains "" = true ∧
    (some "a" : Option String) ≠ some "" :=
  ⟨by decide, by decide, by decide⟩

/-- C6 as amended: while the phase is ready, a non-empty selected id that
still exists in the working set is left unchanged; whenever the
selection is vacant — no selection, an empty-string selected id, or an
id no longer present in the set — the selection moves to the first note
in current order among those with the greatest updatedAt (the code's
stable newest-first sort puts exactly that note at index 0), or to no
selection when the set is empty. -/
theorem selection_maintenance_amended (notes : List Note) (sel : Option String) :
    (∀ sid, sel = some sid → sid ≠ "" → notes.any (fun n => n.id == sid) = true →
      maintainSelectionId .ready notes sel = sel) ∧
    ((match sel with
      | none => True
      | some sid => sid = "" ∨ notes.any (fun n => n.id == sid) = false : Prop) →
      (notes ≠ [] →
        ∃ n, n ∈ notes ∧ maintainSelectionId .ready notes sel = some n.id ∧
          (∀ m ∈ notes, m.updatedAt ≤ n.updatedAt) ∧
          ∃ l₁ l₂, notes = l₁ ++ n :: l₂ ∧ ∀ m ∈ l₁, m.updatedAt < n.updatedAt) ∧
      (notes = [] → maintainSelectionId .ready notes sel = none)) := by
  refine ⟨?_, ?_⟩
  · intro sid hsel hsid hany
    subst hsel
    unfold maintainSelectionId
    rw [if_neg (by simp), if_pos]
    simp [selectionGuard, hsid, hany]
  · intro hvac
    have hguard : selectionGuard notes sel = false := by
      cases sel with
      | none => rfl
      | some sid =>
        rcases hvac with h1 | h2
        · simp [selectionGuard, h1]
        · simp [selectionGuard, h2]
    refine ⟨?_, ?_⟩
    · intro hne
      cases hsn : sortNotes notes with
      | nil =>
        have h := sortNotes_perm notes
        rw [hsn] at h
        exact absurd h.nil_eq.symm hne
      | cons hd tl =>
        obtain ⟨hmem, hmax, l₁, l₂, hsplit, hstrict⟩ := sortNotes_head_stable notes hd tl hsn
        refine ⟨hd, hmem, ?_, hmax, l₁, l₂, hsplit, hstrict⟩
        unfold maintainSelectionId
        rw [if_neg (by simp), if_neg (by rw [hguard]; simp), hsn]
    · intro hnil
      subst hnil
      unfold maintainSelectionId
      rw [if_neg (by simp), if_neg (by rw [hguard]; simp)]
      rfl

/-- C6 witness: a present non-empty selected id is kept. -/
theorem selection_maintenance_amended_witness :
    maintainSelectionId .ready [{ id := "a", title := "", content := "", updatedAt := 5 }]
      (some "a") = some "a" :=
  (selection_maintenance_amended [{ id := "a", title := "", content := "", updatedAt := 5 }]
    (some "a")).1 "a" rfl (by decide) (by decide)

/-- C7 counterexample: the error thrown on an empty id is an ApiError —
the code defines no ValidationError class — so "fails with a
ValidationError" is false as stated (the synchronous failure itself is
real). -/
theorem validation_error_name_counterexample :
    validationErrorName (getNoteValidated "") = some "ApiError" ∧
    validationErrorName (updateNoteValidated "" none) = some "ApiError" ∧
    validationErrorName (deleteNoteValidated "") = some "ApiError" ∧
    "ApiError" ≠ "ValidationError" :=
  ⟨rfl, rfl, rfl, by decide⟩

/-- C7 as amended: every getNote, updateNote or deleteNote call with an
empty or missing id fails synchronously with a non-retriable ApiError
and never produces a request (so no network call is issued). -/
theorem validation_before_request_amended (payload : Option NotePayload) :
    getNoteValidated "" = .error (.apiError "getNote requires an id." none false) ∧
    updateNoteValidated "" payload =
      .error (.apiError "updateNote requires an id." none false) ∧
    deleteNoteValidated "" = .error (.apiError "deleteNote requires an id." none false) ∧
    (∀ req, getNoteValidated "" ≠ .ok req) ∧
    (∀ req, updateNoteValidated "" payload ≠ .ok req) ∧
    (∀ req, deleteNoteValidated "" ≠ .ok req) := by
  refine ⟨rfl, rfl, rfl, ?_, ?_, ?_⟩ <;> intro req h <;>
    simp [getNoteValidated, updateNoteValidated, deleteNoteValidated] at h

/-- C7 witness: the concrete empty-id getNote outcome. -/
theorem validation_before_request_amended_witness :
    getNoteValidated "" = .error (.apiError "getNote requires an id." none false) :=
  (validation_before_request_amended none).1

/-- C8: for every note, including one with empty title and empty
content, displayTitle returns a non-empty string. -/
theorem display_title_nonempty (note : Note) : getNoteDisplayTitle note ≠ "" := by
  unfold getNoteDisplayTitle
  set t := jsTrim note.title with ht
  set fl := jsTrim ((splitChar '\n' note.content.toList).headD []).asString with hfl
  by_cases h1 : 0 < t.length
  · rw [if_pos h1]
    exact (string_length_pos_iff _).mp h1
  · rw [if_neg h1]
    by_cases h2 : 0 < fl.length
    · rw [if_pos h2]
      intro hcontra
      have hc2 : (fl.toList.take 40).asString = "" := hcontra
      have htk : fl.toList.take 40 = [] := (asString_eq_empty_iff _).mp hc2
      rcases List.take_eq_nil_iff.mp htk with h40 | hnil
      · norm_num at h40
      · have hfle : fl = "" := String.ext_iff.mpr (by simpa using hnil)
        exact (string_length_pos_iff fl).mp h2 hfle
    · rw [if_neg h2]
      intro hcontra
      exact absurd (String.ext_iff.mp hcontra) (by simp)

/-- C8 witness: the all-empty note concretely yields the placeholder,
which is non-empty. -/
theorem display_title_nonempty_witness :
    getNoteDisplayTitle { id := "x", title := "", content := "", updatedAt := 0 } =
      "Untitled note" ∧
    getNoteDisplayTitle { id := "x", title := "", content := "", updatedAt := 0 } ≠ "" :=
  ⟨rfl, display_title_nonempty { id := "x", title := "", content := "", updatedAt := 0 }⟩

/-- C9 counterexample: for the empty path the code returns the stripped
base alone, while the claim's "leading slash enforced exactly once"
yields the stripped base followed by a slash, so the claim as stated is
false at path = "". -/
theorem join_url_empty_path_counterexample :
    joinUrl "http://a" "" = "http://a" ∧
    joinUrlSpecC9 "http://a" "" = "http://a/" ∧
    joinUrl "http://a" "" ≠ joinUrlSpecC9 "http://a" "" :=
  ⟨rfl, rfl, by decide⟩

/-- C9 as amended: for every base address and every non-empty resource
path, the built URL is the base with all trailing slashes stripped
followed by the path with a leading slash enforced exactly once; for the
empty path it is just the stripped base. -/
theorem join_url_amended (baseUrl path : String) :
    (path ≠ "" → joinUrl baseUrl path = joinUrlSpecC9 baseUrl path) ∧
    joinUrl baseUrl "" = normalizeBaseUrl baseUrl ∧
    normalizeBaseUrl baseUrl = (dropTrailingSpec '/' baseUrl.toList).asString := by
  have hnorm : normalizeBaseUrl baseUrl = (dropTrailingSpec '/' baseUrl.toList).asString := by
    rw [dropTrailingSpec_eq]
    rfl
  refine ⟨?_, rfl, hnorm⟩
  intro hp
  unfold joinUrl joinUrlSpecC9
  rw [if_neg hp, ← hnorm]
  by_cases hs : path.startsWith "/"
  · rw [if_pos hs, if_pos hs]
  · rw [if_neg hs, if_neg hs, String.append_assoc]

/-- C9 witness: a non-empty path without a leading slash joined to a base
with trailing slashes agrees with the spec's join. -/
theorem join_url_amended_witness :
    joinUrl "http://api.example.com/" "notes" =
      joinUrlSpecC9 "http://api.example.com/" "notes" :=
  (join_url_amended "http://api.example.com/" "notes").1 (by decide)

/-- C10: the working set is ordered by updatedAt descending initially and
after every controller transition — load, retry, optimistic
create/update/delete, reconciliation, and every rollback path — so the
stored order is already the display order. -/
theorem notes_sorted_invariant (s : AppState) (e : AppEvent)
    (h : s.notes.Pairwise (fun a b => b.updatedAt ≤ a.updatedAt)) :
    ((step s e).1.notes).Pairwise (fun a b => b.updatedAt ≤ a.updatedAt) ∧
    (initialAppState.notes).Pairwise (fun a b => b.updatedAt ≤ a.updatedAt) := by
  refine ⟨?_, by simp [initialAppState]⟩
  cases e with
  | initialLoad now1 now2 rand1 rand2 r =>
    cases r with
    | ok l => exact sortNotes_sorted l
    | backendUnavailable m => exact sortNotes_sorted _
    | otherError m => exact h
  | retryLoad now1 now2 rand1 rand2 r =>
    cases r with
    | ok l => exact sortNotes_sorted l
    | backendUnavailable m =>
      simp only [step, applyRetry]
      split
      · exact sortNotes_sorted _
      · exact h
    | otherError m => exact h
  | createNewNote now1 now2 rand r =>
    simp only [step, applyCreate]
    split
    · exact sortNotes_sorted _
    · cases r with
      | ok n => exact sortNotes_sorted _
      | backendUnavailable m => exact sortNotes_sorted _
      | otherError m => exact (sortNotes_sorted _).filter _
  | updateSelectedNote patch now r =>
    simp only [step, applyUpdate]
    cases hsel : selectedNoteOf s with
    | none => exact h
    | some prev =>
      simp only []
      split
      · exact sortNotes_sorted _
      · cases r with
        | ok n => exact sortNotes_sorted _
        | backendUnavailable m => exact sortNotes_sorted _
        | otherError m => exact sortNotes_sorted _
  | deleteNoteById id r =>
    simp only [step, applyDelete, deleteOptimistic]
    split
    · exact h.filter _
    · cases r with
      | ok => exact h.filter _
      | backendUnavailable m => exact h.filter _
      | otherError m => exact h
  | selectNote id => exact h
  | maintainSelection => exact h
  | dismissToast => exact h
  | toastExpire => exact h
  | openMobileSidebar => exact h
  | closeMobileSidebar => exact h

/-- C10 witness: loading a concrete unsorted list from the remote yields
a working set sorted by updatedAt descending. -/
theorem notes_sorted_invariant_witness :
    ((step initialAppState (.initialLoad 1 2 "a" "b"
        (.ok [{ id := "n1", title := "", content := "", updatedAt := 3 },
              { id := "n2", title := "", content := "", updatedAt := 7 }]))).1.notes).Pairwise
      (fun a b => b.updatedAt ≤ a.updatedAt) :=
  (notes_sorted_invariant initialAppState
    (.initialLoad 1 2 "a" "b"
      (.ok [{ id := "n1", title := "", content := "", updatedAt := 3 },
            { id := "n2", title := "", content := "", updatedAt := 7 }]))
    (by simp [initialAppState])).1
